import Mathlib

/-!
Shallow embedding of the payload-normalization and idempotent-upsert engine
of the whatsapp-web-backend repository (`scripts/processPayloads.mjs`,
`models/Message.js`, `import.js`), together with proofs of the spec claims.

Modelling conventions:
* The MongoDB `messages` collection is a `List Message`; `updateOne` /
  `findOneAndUpdate` act on the first matching element, which is faithful
  because the schema declares `msg_id` unique.
* JavaScript string-or-absent fields are `Option String`; JS truthiness on
  them is `none` or `some ""` ↦ falsy.  The `||` chain on such fields is
  `orTruthy`; the `??` chain is `Option.orElse` (`<|>`).
* `Date` values are epoch milliseconds (`Int`); an Invalid Date is `none`.
  ECMA-262 time values are clamped to the ±8.64e15 ms range (`clipDate`).
  The single "current time at processing" is a parameter `now`.
* `Number(ts)` on a string is modelled by `jsToInt` (decimal integer
  literals, the shape webhook timestamps take); `new Date(string)` is
  modelled by `parseISO`, covering the ISO-8601 `YYYY-MM-DDThh:mm:ssZ`
  format whose acceptance ECMA-262 guarantees, and Invalid Date otherwise.
* Mongoose casting: an Invalid Date in the update document makes
  `updateOne` throw a CastError before any store effect, so `upsertMessage`
  returns `Except` and a throw aborts the rest of the file's pipeline
  (`runMsgs`, `processFile`, `mainBatch`).  Mongoose strips `undefined`
  keys from query filters, so `findOneAndUpdate({msg_id: undefined})` is
  `findOneAndUpdate({})` and updates the first stored document; it also
  strips `undefined` update paths (`setStatus`).
-/

set_option autoImplicit false

namespace WhatsApp

/-- A JS value usable as a timestamp: absent/null, a number, or a string. -/
inductive TsInput where
  | none
  | num (n : Int)
  | str (s : String)
  deriving DecidableEq

/-- Truthiness (JS) of a `TsInput` (`!ts`): absent, `0` and `""` are falsy. -/
def TsInput.truthy : TsInput → Bool
  | .none => false
  | .num n => n != 0
  | .str s => !s.isEmpty

/-- The JS `a || b` on timestamp-position values. -/
def tsOr (a b : TsInput) : TsInput :=
  if a.truthy then a else b

/-- Truthiness (JS) of an optional string (`!x`): absent and `""` are falsy. -/
def truthyS : Option String → Bool
  | Option.none => false
  | some s => !s.isEmpty

/-- The JS `a || b` on optional strings: first truthy operand, else `b`. -/
def orTruthy (a b : Option String) : Option String :=
  if truthyS a then a else b

/-- Decimal digit value of a character, if it is a digit. -/
def digitVal (c : Char) : Option Nat :=
  if c.isDigit then some (c.toNat - 48) else Option.none

/-- Two decimal digits as a number. -/
def twoDigits (a b : Char) : Option Nat := do
  let x ← digitVal a
  let y ← digitVal b
  pure (10 * x + y)

/-- Accumulate a run of decimal digits. -/
def digitsToNat (acc : Nat) : List Char → Option Nat
  | [] => some acc
  | c :: cs =>
    match digitVal c with
    | some d => digitsToNat (10 * acc + d) cs
    | Option.none => Option.none

/-- The JS `Number(string)` coercion, on the decimal-integer literals that
webhook timestamps take (optional sign, digits); other strings are NaN. -/
def jsToInt (s : String) : Option Int :=
  match s.toList with
  | [] => Option.none
  | '-' :: rest =>
    if rest.isEmpty then Option.none
    else (digitsToNat 0 rest).map (fun n => -(n : Int))
  | '+' :: rest =>
    if rest.isEmpty then Option.none
    else (digitsToNat 0 rest).map (fun n => (n : Int))
  | l => (digitsToNat 0 l).map (fun n => (n : Int))

/-- Days from 1970-01-01 to year `y`, month `m`, day `d` (proleptic
Gregorian civil calendar), by the standard era/year-of-era computation. -/
def daysFromCivil (y : Int) (m d : Nat) : Int :=
  let y2 : Int := if m ≤ 2 then y - 1 else y
  let era : Int := Int.ediv y2 400
  let yoe : Int := y2 - era * 400
  let mp : Int := (m : Int) + (if m > 2 then -3 else 9)
  let doy : Int := Int.ediv (153 * mp + 2) 5 + (d : Int) - 1
  let doe : Int := yoe * 365 + Int.ediv yoe 4 - Int.ediv yoe 100 + doy
  era * 146097 + doe - 719468

/-- Parsing `new Date(string)` for an ISO-8601 UTC string `YYYY-MM-DDThh:mm:ssZ`,
as epoch milliseconds; any other string yields `none` (Invalid Date). -/
def parseISO (s : String) : Option Int :=
  match s.toList with
  | [y1, y2, y3, y4, '-', o1, o2, '-', d1, d2, 'T',
     h1, h2, ':', i1, i2, ':', s1, s2, 'Z'] => do
    let a ← twoDigits y1 y2
    let b ← twoDigits y3 y4
    let mo ← twoDigits o1 o2
    let d ← twoDigits d1 d2
    let h ← twoDigits h1 h2
    let mi ← twoDigits i1 i2
    let ss ← twoDigits s1 s2
    if 1 ≤ mo ∧ mo ≤ 12 ∧ 1 ≤ d ∧ d ≤ 31 ∧ h ≤ 23 ∧ mi ≤ 59 ∧ ss ≤ 59 then
      let y : Int := 100 * (a : Int) + (b : Int)
      pure ((daysFromCivil y mo d * 86400 + h * 3600 + mi * 60 + ss) * 1000)
    else Option.none
  | _ => Option.none

/-- ECMA-262 time-value range: a `Date` holds an instant only within
±8.64e15 ms of the epoch; `new Date(n)` outside it is Invalid Date. -/
def clipDate (t : Int) : Option Int :=
  if -8640000000000000 ≤ t ∧ t ≤ 8640000000000000 then some t
  else Option.none

/-- Function `asDate` (processPayloads.mjs lines 13–21): falsy inputs give the
current time; numeric values are unix milliseconds when `> 1e12`, else unix
seconds, clamped to the representable `Date` range; other strings go
through `new Date(string)`. -/
def asDate (now : Int) (ts : TsInput) : Option Int :=
  match ts with
  | .none => some now
  | .num n =>
    if n == 0 then some now
    else clipDate (if n > 1000000000000 then n else n * 1000)
  | .str s =>
    if s.isEmpty then some now
    else
      match jsToInt s with
      | some n => clipDate (if n > 1000000000000 then n else n * 1000)
      | Option.none => (parseISO s).bind clipDate

/-- A document of the `messages` collection (models/Message.js).
`timestamp` is epoch ms; an Invalid Date never reaches the store because
the schema cast rejects it (see `upsertMessage`). -/
structure Message where
  wa_id : String
  msg_id : String
  meta_msg_id : Option String
  text : String
  timestamp : Int
  status : String
  profileName : String
  fromSelf : Bool
  deriving DecidableEq

instance {ε α : Type} [DecidableEq ε] [DecidableEq α] :
    DecidableEq (Except ε α)
  | .ok a, .ok b =>
    if h : a = b then .isTrue (by rw [h]) else .isFalse (by simp [h])
  | .error a, .error b =>
    if h : a = b then .isTrue (by rw [h]) else .isFalse (by simp [h])
  | .ok _, .error _ => .isFalse (by simp)
  | .error _, .ok _ => .isFalse (by simp)

/-- Argument record of `upsertMessage` (processPayloads.mjs lines 23–32). -/
structure MessageInput where
  wa_id : Option String
  msg_id : Option String
  meta_msg_id : Option String
  text : Option String
  timestamp : TsInput
  status : String
  profileName : String
  fromSelf : Bool

/-- Update the first list element satisfying `p` (MongoDB `updateOne` /
`findOneAndUpdate` update at most one document). -/
def updateFirst {α : Type} (p : α → Bool) (f : α → α) : List α → List α
  | [] => []
  | x :: xs => if p x then f x :: xs else x :: updateFirst p f xs

/-- The message Mongoose raises when the schema cast of the update
document meets an Invalid Date. -/
def castDateError : String :=
  "Cast to date failed for value Invalid Date at path timestamp"

/-- Function `upsertMessage` (processPayloads.mjs lines 23–53): no-op when `wa_id`
or `msg_id` is falsy; otherwise `updateOne({msg_id}, {$setOnInsert: …,
$set: {status}}, {upsert: true})` — update the status of the existing
document with this `msg_id`, or insert a fresh document.  Mongoose casts
the whole update document before any store effect, so an Invalid Date
timestamp makes the call throw a CastError (`Except.error`) and mutate
nothing, whether or not the document already exists. -/
def upsertMessage (now : Int) (i : MessageInput) (store : List Message) :
    Except String (List Message) :=
  if !truthyS i.wa_id || !truthyS i.msg_id then .ok store
  else
    match asDate now i.timestamp with
    | Option.none => .error castDateError
    | some t =>
      let m := i.msg_id.getD ""
      if store.any (fun r => r.msg_id == m) then
        .ok (updateFirst (fun r => r.msg_id == m)
          (fun r => { r with status := i.status }) store)
      else
        .ok (store ++
          [({ wa_id := i.wa_id.getD "", msg_id := m,
              meta_msg_id := i.meta_msg_id, text := i.text.getD "",
              timestamp := t, status := i.status,
              profileName := i.profileName,
              fromSelf := i.fromSelf } : Message)])

/-- Argument record of `applyStatus` (processPayloads.mjs line 55). -/
structure StatusInput where
  id : Option String
  metaMsgId : Option String
  status : Option String

/-- The query `{msg_id: id}`: Mongoose strips `undefined` keys from query
filters, so with `id` absent the filter is `{}` and every document
matches (`findOneAndUpdate` then updates the first one). -/
def msgIdQuery (id : Option String) (r : Message) : Bool :=
  match id with
  | some s => r.msg_id == s
  | Option.none => true

/-- The query `{meta_msg_id: m}` for a present `m`. -/
def metaQuery (m : Option String) (r : Message) : Bool :=
  match m with
  | some s => r.meta_msg_id == some s
  | Option.none => false

/-- Modelling `$set {status}` where `status` may be absent: Mongoose strips
`undefined` update paths, leaving the field unchanged. -/
def setStatus (st : Option String) (r : Message) : Message :=
  { r with status := st.getD r.status }

/-- Function `applyStatus` (processPayloads.mjs lines 55–71): guard on both ids
falsy; `findOneAndUpdate` by `msg_id`, and only if that matched nothing and
`metaMsgId` is truthy, by `meta_msg_id`.  The function yields the updated
collection; the JS function itself returns `undefined` and surfaces no
match result. -/
def applyStatus (i : StatusInput) (store : List Message) :
    List Message :=
  if !truthyS i.id && !truthyS i.metaMsgId then store
  else if store.any (msgIdQuery i.id) then
    updateFirst (msgIdQuery i.id) (setStatus i.status) store
  else if truthyS i.metaMsgId then
    updateFirst (metaQuery i.metaMsgId) (setStatus i.status) store
  else store

/-- One element of a `messages` array in a payload (the fields probed by
processPayloads.mjs lines 110–116).  `from_` models `m.from`, a string in
webhook payloads; the probe `m?.from?.id` of line 113 is then always
undefined (a string has no `id` property) and is omitted.  `text_body`
models `m.text.body` of the nested text shape, `text` the flat string
shape. -/
structure MsgEvent where
  id : Option String
  msg_id : Option String
  from_ : Option String
  wa_id : Option String
  context_id : Option String
  meta_msg_id : Option String
  text_body : Option String
  text : Option String
  message : Option String
  timestamp : TsInput
  deriving DecidableEq

/-- One element of a `statuses` array (fields probed at lines 131–135). -/
structure StatusEvent where
  id : Option String
  message_id : Option String
  msg_id : Option String
  meta_msg_id : Option String
  status : Option String
  conversation_status : Option String
  message_status_field : Option String
  deriving DecidableEq

/-- One `contacts[]` element (fields probed by `extractContacts`). -/
structure Contact where
  wa_id : Option String
  waId : Option String
  profile_name : Option String
  deriving DecidableEq

/-- The fields of a `value` container (or of the payload root, which
doubles as a `value` in the flat shape) that processFile probes.
`fromId` models `payload?.from?.id`; `nested_contact_profile_name` models
the probe `payload?.value?.contacts?.[0]?.profile?.name`. -/
structure ValueObj where
  messages : Option (List MsgEvent)
  statuses : Option (List StatusEvent)
  message_status : Option (List StatusEvent)
  contacts : Option (List Contact)
  wa_id : Option String
  fromId : Option String
  profile_name : Option String
  nested_contact_profile_name : Option String
  timestamp : TsInput
  deriving DecidableEq

/-- One `entry[].changes[]` element. -/
structure Change where
  value : Option ValueObj
  deriving DecidableEq

/-- One `entry[]` element. -/
structure Entry where
  changes : Option (List Change)
  deriving DecidableEq

/-- A parsed payload: the optional envelope fields plus the root-level
value-like fields (`root` holds `payload.messages`, `payload.statuses`,
`payload.contacts`, `payload.wa_id`, `payload.timestamp`, …). -/
structure Payload where
  entry : Option (List Entry)
  entries : Option (List Entry)
  value : Option ValueObj
  root : ValueObj
  deriving DecidableEq

/-- Function `extractContacts` (lines 73–84), applied to the resolved `value`:
yields the fallback `wa_id` and profile name. -/
def extractContacts (v : ValueObj) : Option String × String :=
  let contact := v.contacts.bind List.head?
  let wa_id :=
    orTruthy (contact.bind Contact.wa_id)
      (orTruthy (contact.bind Contact.waId) (orTruthy v.wa_id v.fromId))
  let profileName :=
    orTruthy (contact.bind Contact.profile_name)
      (orTruthy v.profile_name v.nested_contact_profile_name)
  (wa_id, if truthyS profileName then profileName.getD "" else "Unknown")

/-- Field resolution for one message event (lines 111–116 and 118–127):
the `MessageInput` handed to `upsertMessage`, with `status` fixed to
`"sent"`, the contact fallbacks, and the timestamp `||` chain through the
container and payload levels. -/
def resolveMsgInput (fbWaId : Option String) (fbProfile : String)
    (valueTs payloadTs : TsInput) (m : MsgEvent) : MessageInput :=
  { wa_id := orTruthy m.from_ (orTruthy fbWaId m.wa_id),
    msg_id := orTruthy m.id m.msg_id,
    meta_msg_id := orTruthy m.context_id m.meta_msg_id,
    text := (m.text_body <|> m.text <|> m.message) <|> some "",
    timestamp := tsOr m.timestamp (tsOr valueTs payloadTs),
    status := "sent", profileName := fbProfile, fromSelf := false }

/-- Field resolution for one status event (lines 132–134). -/
def resolveStatusInput (s : StatusEvent) : StatusInput :=
  { id := orTruthy s.id
      (orTruthy s.message_id (orTruthy s.msg_id s.meta_msg_id)),
    metaMsgId := orTruthy s.meta_msg_id s.id,
    status := orTruthy s.status
      (orTruthy s.conversation_status s.message_status_field) }

/-- The body of the message loop (lines 110–128); a CastError propagates
to the caller (`Except.error`). -/
def msgStep (now : Int) (fbWaId : Option String) (fbProfile : String)
    (valueTs payloadTs : TsInput) (m : MsgEvent) (store : List Message) :
    Except String (List Message) :=
  upsertMessage now (resolveMsgInput fbWaId fbProfile valueTs payloadTs m)
    store

/-- The body of the status loop (lines 131–136); the JS discards the
returned document. -/
def statusStep (s : StatusEvent) (store : List Message) : List Message :=
  applyStatus (resolveStatusInput s) store

/-- The message loop of `processFile` (lines 110–128): each `await`ed
upsert commits before the next starts, so a throw keeps the earlier
upserts and aborts the rest of the loop; the result is the store reached
so far plus the error, if one was thrown. -/
def runMsgs (now : Int) (fbWaId : Option String) (fbProfile : String)
    (valueTs payloadTs : TsInput) :
    List MsgEvent → List Message → List Message × Option String
  | [], st => (st, Option.none)
  | m :: ms, st =>
    match msgStep now fbWaId fbProfile valueTs payloadTs m st with
    | .error e => (st, some e)
    | .ok st2 => runMsgs now fbWaId fbProfile valueTs payloadTs ms st2

/-- Function `processFile` after `JSON.parse` (lines 91–137): envelope resolution
(`entry[0].changes[0].value`, else `payload.value`, else the root), the
`messages`/`statuses` arrays (JS `||` keeps a present-but-empty array,
matching `<|>`), then all messages, then all statuses.  The result is the
final store plus the error that aborted the file, if any (a throw in the
message loop skips the remaining messages and all statuses). -/
def processFile (now : Int) (p : Payload) (store : List Message) :
    List Message × Option String :=
  let entry := (p.entry <|> p.entries).bind List.head?
  let change := (entry.bind Entry.changes).bind List.head?
  let value := ((change.bind Change.value) <|> p.value).getD p.root
  let messages := (value.messages <|> p.root.messages).getD []
  let statuses :=
    (value.statuses <|> value.message_status <|> p.root.statuses).getD []
  let fb := extractContacts value
  match runMsgs now fb.1 fb.2 value.timestamp p.root.timestamp messages
      store with
  | (st, some e) => (st, some e)
  | (st, Option.none) =>
    (statuses.foldl (fun st s => statusStep s st) st, Option.none)

/-- One line of the batch driver's console report (lines 153–158). -/
inductive LogEntry where
  | processing (file : String)
  | done (file : String)
  | failed (file : String) (errMsg : String)
  deriving DecidableEq

/-- One payload source: a file name plus its parse outcome — `Except.error`
is a `JSON.parse` failure carrying the error message. -/
structure SourceFile where
  name : String
  content : Except String Payload

/-- ASCII lower-casing of one character (as `toLowerCase` does on ASCII
file names). -/
def lowerChar (c : Char) : Char :=
  if 'A' ≤ c ∧ c ≤ 'Z' then Char.ofNat (c.toNat + 32) else c

/-- The file filter `f.toLowerCase().endsWith(".json")` (line 145). -/
def isJsonName (s : String) : Bool :=
  match (s.toList.map lowerChar).reverse with
  | 'n' :: 'o' :: 's' :: 'j' :: '.' :: _ => true
  | _ => false

/-- The body of the batch loop for one file (lines 151–159): parse
failures and processing throws are logged as Failed with the error's
message; either way the loop continues. -/
def mainStep (now : Int) (acc : List Message × List LogEntry)
    (f : SourceFile) : List Message × List LogEntry :=
  match f.content with
  | .ok p =>
    match processFile now p acc.1 with
    | (st, Option.none) =>
      (st, acc.2 ++ [.processing f.name, .done f.name])
    | (st, some e) =>
      (st, acc.2 ++ [.processing f.name, .failed f.name e])
  | .error e => (acc.1, acc.2 ++ [.processing f.name, .failed f.name e])

/-- The batch loop of `main` (lines 144–160): keep the `.json` files, and
run `mainStep` over them, starting from the given store and an empty
log. -/
def mainBatch (now : Int) (files : List SourceFile)
    (store : List Message) : List Message × List LogEntry :=
  let jsonFiles := files.filter (fun f => isJsonName f.name)
  jsonFiles.foldl (mainStep now) (store, [])

/-! ## Trace view of one source (for the ordering claim)

The two loops of `processFile` are replayed as an explicit list of store
operations in application order, so that "all messages before any status"
is statable as a property of that list. -/

/-- One store operation of the per-source pipeline. -/
inductive Op where
  | msg (i : MessageInput)
  | status (i : StatusInput)

/-- Whether an operation is a status application. -/
def Op.isStatus : Op → Bool
  | .msg _ => false
  | .status _ => true

/-- Replay a list of operations against the store with the pipeline's
error behavior: a message upsert that throws stops the replay (keeping the
store reached so far and the error); status applications never throw. -/
def runOps (now : Int) : List Op → List Message →
    List Message × Option String
  | [], st => (st, Option.none)
  | op :: ops, st =>
    match op with
    | .msg i =>
      match upsertMessage now i st with
      | .error e => (st, some e)
      | .ok st2 => runOps now ops st2
    | .status i => runOps now ops (applyStatus i st)

/-- The operations of `processFile` on payload `p`, in the order the code
applies them: the message upserts of the message loop (lines 110–128),
then the status applications of the status loop (lines 131–136). -/
def processTrace (p : Payload) : List Op :=
  let entry := (p.entry <|> p.entries).bind List.head?
  let change := (entry.bind Entry.changes).bind List.head?
  let value := ((change.bind Change.value) <|> p.value).getD p.root
  let messages := (value.messages <|> p.root.messages).getD []
  let statuses :=
    (value.statuses <|> value.message_status <|> p.root.statuses).getD []
  let fb := extractContacts value
  messages.map (fun m => Op.msg
      (resolveMsgInput fb.1 fb.2 value.timestamp p.root.timestamp m))
    ++ statuses.map (fun s => Op.status (resolveStatusInput s))

/-- Ingesting the same message event `n` times in sequence (the repeated
replay quantified by the idempotence claim); a throw stops the run. -/
def ingestN (now : Int) (i : MessageInput) :
    Nat → List Message → Except String (List Message)
  | 0, st => .ok st
  | n + 1, st =>
    match upsertMessage now i st with
    | .error e => .error e
    | .ok st2 => ingestN now i n st2

/-! ## Concrete instances used by counterexamples and witnesses -/

/-- A message input with a non-empty `msg_id` but no `wa_id`. -/
def c1BadInput : MessageInput :=
  ⟨Option.none, some "m1", Option.none, Option.none, TsInput.none,
   "sent", "Unknown", false⟩

/-- A valid message input. -/
def c1GoodInput : MessageInput :=
  ⟨some "u", some "m1", Option.none, Option.none, TsInput.none,
   "sent", "Unknown", false⟩

/-- A `ValueObj` with every field absent. -/
def emptyValue : ValueObj :=
  ⟨Option.none, Option.none, Option.none, Option.none, Option.none,
   Option.none, Option.none, Option.none, TsInput.none⟩

/-- The flat payload shape: the value-like fields sit at the root. -/
def flatOf (v : ValueObj) : Payload :=
  ⟨Option.none, Option.none, Option.none, v⟩

/-- The nested payload shape: the same `value` inside a single-entry,
single-change envelope. -/
def nestedOf (v : ValueObj) : Payload :=
  ⟨some [⟨some [⟨some v⟩]⟩], Option.none, Option.none, emptyValue⟩

/-- A minimal message event with id `i` and sender `u`. -/
def mkMsg (i : String) : MsgEvent :=
  ⟨some i, Option.none, some "u", Option.none, Option.none, Option.none,
   Option.none, some "hello", Option.none, TsInput.num 1⟩

/-- A value carrying exactly the messages `ms`. -/
def mkValue (ms : List MsgEvent) : ValueObj :=
  { emptyValue with messages := some ms }

/-- A flat payload with two messages. -/
def c2Flat : Payload := flatOf (mkValue [mkMsg "a", mkMsg "b"])

/-- A nested payload carrying the same two messages spread over two
entries (one change each). -/
def c2NestedTwoEntries : Payload :=
  ⟨some [⟨some [⟨some (mkValue [mkMsg "a"])⟩]⟩,
         ⟨some [⟨some (mkValue [mkMsg "b"])⟩]⟩],
   Option.none, Option.none, emptyValue⟩

/-- A payload with one message, and one with two (same source name), for
the batch-report counterexample. -/
def c9OneMsg : Payload := flatOf (mkValue [mkMsg "a"])

/-- A payload with two messages. -/
def c9TwoMsgs : Payload := flatOf (mkValue [mkMsg "a", mkMsg "b"])

/-- A message event with no id at all (dropped by the upsert guard). -/
def c6BadEv : MsgEvent :=
  ⟨Option.none, Option.none, some "u", Option.none, Option.none,
   Option.none, Option.none, some "x", Option.none, TsInput.num 1⟩

/-- A message event whose timestamp is an unparseable string, so its
upsert throws a CastError. -/
def c10BadEv : MsgEvent :=
  ⟨some "a", Option.none, some "u", Option.none, Option.none,
   Option.none, Option.none, some "hello", Option.none,
   TsInput.str "garbage"⟩

/-- A one-record store whose record matches neither the correlation id
"X" nor any present message id used by the status counterexample. -/
def c5Store : List Message :=
  [⟨"u", "A", Option.none, "hi", 0, "sent", "Unknown", false⟩]

/-! ## Helper lemmas -/

lemma truthyS_some {s : String} (h : s ≠ "") : truthyS (some s) = true := by
  have hb : s.isEmpty = false := by
    cases hb : s.isEmpty
    · rfl
    · exact absurd ((String.isEmpty_iff s).mp hb) h
  simp [truthyS, hb]

lemma updateFirst_of_forall_not {α : Type} (p : α → Bool) (f : α → α)
    (l : List α) (h : ∀ x ∈ l, p x = false) :
    updateFirst p f l = l := by
  induction l with
  | nil => rfl
  | cons x xs ih =>
    have hx := h x (by simp)
    simp [updateFirst, hx, ih fun y hy => h y (by simp [hy])]

lemma updateFirst_append_of_forall_not {α : Type} (p : α → Bool)
    (f : α → α) (l₁ l₂ : List α) (h : ∀ x ∈ l₁, p x = false) :
    updateFirst p f (l₁ ++ l₂) = l₁ ++ updateFirst p f l₂ := by
  induction l₁ with
  | nil => rfl
  | cons x xs ih =>
    have hx := h x (by simp)
    simp [updateFirst, hx, ih fun y hy => h y (by simp [hy])]

lemma updateFirst_idem {α : Type} (p : α → Bool) (f : α → α)
    (hf : ∀ x, p x = true → f (f x) = f x)
    (hp : ∀ x, p x = true → p (f x) = true) (l : List α) :
    updateFirst p f (updateFirst p f l) = updateFirst p f l := by
  induction l with
  | nil => rfl
  | cons x xs ih =>
    by_cases h : p x = true
    · simp [updateFirst, h, hp x h, hf x h]
    · simp only [Bool.not_eq_true] at h
      simp [updateFirst, h, ih]

lemma any_updateFirst {α : Type} (p q : α → Bool) (f : α → α)
    (hq : ∀ x, q (f x) = q x) (l : List α) :
    (updateFirst p f l).any q = l.any q := by
  induction l with
  | nil => rfl
  | cons x xs ih =>
    by_cases h : p x = true
    · simp [updateFirst, h, hq]
    · simp only [Bool.not_eq_true] at h
      simp [updateFirst, h, ih]

lemma countP_updateFirst {α : Type} (p q : α → Bool) (f : α → α)
    (hq : ∀ x, q (f x) = q x) (l : List α) :
    (updateFirst p f l).countP q = l.countP q := by
  induction l with
  | nil => rfl
  | cons x xs ih =>
    by_cases h : p x = true
    · simp [updateFirst, h, List.countP_cons, hq]
    · simp only [Bool.not_eq_true] at h
      simp [updateFirst, h, List.countP_cons, ih]

lemma asDate_falsy (now : Int) (ts : TsInput) (h : ts.truthy = false) :
    asDate now ts = some now := by
  cases ts with
  | none => rfl
  | num n =>
    simp only [TsInput.truthy, bne_eq_false_iff_eq] at h
    simp [asDate, h]
  | str s =>
    cases hb : s.isEmpty
    · simp [TsInput.truthy, hb] at h
    · simp [asDate, hb]

lemma upsertMessage_invalid (now : Int) (i : MessageInput)
    (store : List Message)
    (h : truthyS i.wa_id = false ∨ truthyS i.msg_id = false) :
    upsertMessage now i store = Except.ok store := by
  unfold upsertMessage
  rcases h with h | h <;> simp [h]

lemma upsertMessage_idem (now : Int) (i : MessageInput)
    (hwa : truthyS i.wa_id = true) (hmsg : truthyS i.msg_id = true)
    (store st1 : List Message)
    (h : upsertMessage now i store = Except.ok st1) :
    upsertMessage now i st1 = Except.ok st1 := by
  unfold upsertMessage at h ⊢
  simp only [hwa, hmsg, Bool.not_true, Bool.or_self, Bool.false_eq_true,
    if_false] at h ⊢
  cases hts : asDate now i.timestamp with
  | none => rw [hts] at h; exact absurd h (by simp)
  | some t =>
    rw [hts] at h
    dsimp only at h ⊢
    set m := i.msg_id.getD "" with hm
    set p : Message → Bool := fun r => r.msg_id == m with hp
    set g : Message → Message := fun r => { r with status := i.status }
      with hg
    by_cases hany : store.any p = true
    · rw [if_pos hany] at h
      have hst1 : st1 = updateFirst p g store := (Except.ok.inj h).symm
      subst hst1
      have h2 : (updateFirst p g store).any p = true := by
        rw [any_updateFirst p p g (fun x => rfl)]
        exact hany
      rw [if_pos h2,
        updateFirst_idem p g (fun x _ => rfl) (fun x hx => hx)]
    · simp only [Bool.not_eq_true] at hany
      rw [if_neg (by simp [hany])] at h
      have hst1 : st1 = store ++ [(⟨i.wa_id.getD "", m, i.meta_msg_id,
          i.text.getD "", t, i.status, i.profileName, i.fromSelf⟩
            : Message)] := (Except.ok.inj h).symm
      subst hst1
      have h2 : (store ++ [(⟨i.wa_id.getD "", m, i.meta_msg_id,
          i.text.getD "", t, i.status, i.profileName, i.fromSelf⟩
            : Message)]).any p = true := by
        simp only [List.any_append, hany, Bool.false_or, List.any_cons,
          List.any_nil, Bool.or_false, hp]
        exact beq_self_eq_true m
      rw [if_pos h2, updateFirst_append_of_forall_not p g _ _
        (fun x hx => by simpa using List.any_eq_false.mp hany x hx)]
      simp [updateFirst, hp, hg]

lemma upsertMessage_ok (now : Int) (i : MessageInput)
    (hwa : truthyS i.wa_id = true) (hmsg : truthyS i.msg_id = true)
    (t : Int) (hts : asDate now i.timestamp = some t)
    (store : List Message) :
    ∃ st1, upsertMessage now i store = Except.ok st1 := by
  unfold upsertMessage
  simp only [hwa, hmsg, Bool.not_true, Bool.or_self, Bool.false_eq_true,
    if_false, hts]
  by_cases hany :
      store.any (fun r => r.msg_id == i.msg_id.getD "") = true
  · exact ⟨_, by rw [if_pos hany]⟩
  · exact ⟨_, by rw [if_neg hany]⟩

lemma upsertMessage_count_one (now : Int) (i : MessageInput) (m : String)
    (hm : i.msg_id = some m) (hmne : m ≠ "")
    (hwa : truthyS i.wa_id = true) (store st1 : List Message)
    (hu : store.countP (fun r => r.msg_id == m) ≤ 1)
    (h : upsertMessage now i store = Except.ok st1) :
    st1.countP (fun r => r.msg_id == m) = 1 := by
  have hmt : truthyS (some m) = true := truthyS_some hmne
  have hmsg : truthyS i.msg_id = true := by rw [hm]; exact hmt
  unfold upsertMessage at h
  simp only [hwa, hm, hmt, Bool.not_true, Bool.or_self,
    Bool.false_eq_true, if_false, Option.getD_some] at h
  cases hts : asDate now i.timestamp with
  | none => rw [hts] at h; exact absurd h (by simp)
  | some t =>
    rw [hts] at h
    dsimp only at h
    by_cases hany : store.any (fun r => r.msg_id == m) = true
    · rw [if_pos hany] at h
      have hst1 : st1 = updateFirst (fun r => r.msg_id == m)
          (fun r => { r with status := i.status }) store :=
        (Except.ok.inj h).symm
      subst hst1
      rw [countP_updateFirst (fun r => r.msg_id == m)
        (fun r => r.msg_id == m)
        (fun r => { r with status := i.status }) (fun x => rfl) store]
      have h1 : 0 < store.countP (fun r => r.msg_id == m) := by
        rw [List.countP_pos_iff]
        obtain ⟨x, hx, hpx⟩ := List.any_eq_true.mp hany
        exact ⟨x, hx, hpx⟩
      omega
    · simp only [Bool.not_eq_true] at hany
      rw [if_neg (by simp [hany])] at h
      have hst1 : st1 = store ++ [(⟨i.wa_id.getD "", m, i.meta_msg_id,
          i.text.getD "", t, i.status, i.profileName, i.fromSelf⟩
            : Message)] := (Except.ok.inj h).symm
      subst hst1
      rw [List.countP_append]
      have h0 : store.countP (fun r => r.msg_id == m) = 0 := by
        rw [List.countP_eq_zero]
        intro a ha
        simp [List.any_eq_false.mp hany a ha]
      rw [h0]
      simp [List.countP_cons]

/-! ## C1: idempotent create -/

/-- C1 (counterexample): the claim quantifies over every message input
with a non-empty `messageId`, but an input whose `conversationId`
(`wa_id`) is absent is rejected by `upsertMessage`, so ingesting it twice
yields zero stored records with that id, not exactly one. -/
theorem c1_missing_conversation_counterexample :
    ingestN 0 c1BadInput 2 [] = Except.ok [] ∧
    ([] : List Message).countP (fun r => r.msg_id == "m1") ≠ 1 := by
  constructor <;> decide

/-- C1 (amended): for every message input with a non-empty `messageId`,
a non-empty `conversationId` and a timestamp that resolves to a valid
date (an Invalid Date makes the underlying update throw a CastError and
store nothing), on a store satisfying the uniqueness invariant for that
id, ingesting the input `n+1` times succeeds and gives exactly the store
of one ingestion — so every ingestion after the first changes nothing,
content fields included — and exactly one stored record carries that
`msg_id`. -/
theorem c1_idempotent_upsert (now : Int) (i : MessageInput) (m : String)
    (hm : i.msg_id = some m) (hmne : m ≠ "")
    (hwa : truthyS i.wa_id = true)
    (t : Int) (ht : asDate now i.timestamp = some t)
    (store : List Message)
    (hu : store.countP (fun r => r.msg_id == m) ≤ 1) (n : Nat) :
    ∃ st1, upsertMessage now i store = Except.ok st1 ∧
      ingestN now i (n + 1) store = Except.ok st1 ∧
      st1.countP (fun r => r.msg_id == m) = 1 := by
  have hmsg : truthyS i.msg_id = true := by
    rw [hm]; exact truthyS_some hmne
  obtain ⟨st1, h1⟩ := upsertMessage_ok now i hwa hmsg t ht store
  have hidem := upsertMessage_idem now i hwa hmsg store st1 h1
  have hfix : ∀ k, ingestN now i k st1 = Except.ok st1 := by
    intro k
    induction k with
    | zero => rfl
    | succ k ih =>
      unfold ingestN
      rw [hidem]
      exact ih
  refine ⟨st1, h1, ?_, upsertMessage_count_one now i m hm hmne hwa store
    st1 hu h1⟩
  unfold ingestN
  rw [h1]
  exact hfix n

/-- C1 (witness for the amended theorem): a valid input ingested twice
into the empty store equals one ingestion, which stores exactly one
record with its id. -/
theorem c1_idempotent_upsert_witness :
    ("m1" : String) ≠ "" ∧ truthyS c1GoodInput.wa_id = true ∧
    asDate 0 c1GoodInput.timestamp = some 0 ∧
    (∃ st1, upsertMessage 0 c1GoodInput [] = Except.ok st1 ∧
      ingestN 0 c1GoodInput 2 [] = Except.ok st1 ∧
      st1.countP (fun r => r.msg_id == "m1") = 1) :=
  ⟨by decide, by decide, by decide,
   c1_idempotent_upsert 0 c1GoodInput "m1" rfl (by decide) (by decide)
     0 (by decide) [] (by decide) 1⟩

/-! ## C6: invalid message rejection -/

/-- C6: a message event whose resolved `messageId` or resolved
`conversationId` is empty or absent causes no store mutation and no
error, and the remaining messages of the same payload produce exactly
the outcome they would produce without it. -/
theorem c6_invalid_message_rejected (now : Int) (fbW : Option String)
    (fbP : String) (vts pts : TsInput) (store : List Message)
    (ms₁ ms₂ : List MsgEvent) (bad : MsgEvent)
    (hbad : truthyS (orTruthy bad.id bad.msg_id) = false ∨
      truthyS (orTruthy bad.from_ (orTruthy fbW bad.wa_id)) = false) :
    runMsgs now fbW fbP vts pts (ms₁ ++ bad :: ms₂) store
      = runMsgs now fbW fbP vts pts (ms₁ ++ ms₂) store := by
  have hstep : ∀ st, msgStep now fbW fbP vts pts bad st
      = Except.ok st := by
    intro st
    unfold msgStep
    apply upsertMessage_invalid
    rcases hbad with h | h
    · exact Or.inr h
    · exact Or.inl h
  induction ms₁ generalizing store with
  | nil =>
    simp only [List.nil_append, runMsgs, hstep]
  | cons m ms ih =>
    simp only [List.cons_append, runMsgs]
    cases hms : msgStep now fbW fbP vts pts m store with
    | error e => rfl
    | ok st2 => exact ih st2

/-- C6 (witness): a payload whose middle message lacks any id leaves the
other two messages stored exactly as if it were absent. -/
theorem c6_invalid_message_rejected_witness :
    truthyS (orTruthy c6BadEv.id c6BadEv.msg_id) = false ∧
    runMsgs 0 Option.none "Unknown" TsInput.none TsInput.none
        [mkMsg "a", c6BadEv, mkMsg "b"] []
      = runMsgs 0 Option.none "Unknown" TsInput.none TsInput.none
        [mkMsg "a", mkMsg "b"] [] :=
  ⟨by decide,
   c6_invalid_message_rejected 0 Option.none "Unknown" TsInput.none
     TsInput.none [] [mkMsg "a"] [mkMsg "b"] c6BadEv
     (Or.inl (by decide))⟩

/-! ## C10: duplicate message ingestion overwrites status -/

/-- C10 (counterexample): the claim covers every re-ingested message
event, but an event whose timestamp is unparseable makes the update
throw a CastError (Mongoose casts `$setOnInsert` before the store is
touched), so the stored record keeps its "read" status instead of being
reset to "sent". -/
theorem c10_cast_error_counterexample :
    msgStep 0 Option.none "Unknown" TsInput.none TsInput.none c10BadEv
        [⟨"u", "a", Option.none, "hello", 1000, "read", "Unknown",
          false⟩]
      = Except.error castDateError ∧
    msgStep 0 Option.none "Unknown" TsInput.none TsInput.none c10BadEv
        [⟨"u", "a", Option.none, "hello", 1000, "read", "Unknown",
          false⟩]
      ≠ Except.ok [⟨"u", "a", Option.none, "hello", 1000, "sent",
          "Unknown", false⟩] := by
  constructor <;> decide

/-- C10 (amended): re-ingesting a message event whose resolved timestamp
is a valid date through the batch pipeline's message loop onto a store
holding a record with the same `msg_id` succeeds and rewrites that
record's status to "sent" (the pipeline's fixed input status), leaving
its every other field and the rest of the store unchanged — so a record
currently "delivered" or "read" is downgraded. -/
theorem c10_reingest_resets_status (now : Int) (fbW : Option String)
    (fbP : String) (vts pts : TsInput) (ev : MsgEvent) (m : String)
    (hm : orTruthy ev.id ev.msg_id = some m) (hmne : m ≠ "")
    (hwa : truthyS (orTruthy ev.from_ (orTruthy fbW ev.wa_id)) = true)
    (t : Int)
    (ht : asDate now (tsOr ev.timestamp (tsOr vts pts)) = some t)
    (rs₁ rs₂ : List Message) (r : Message)
    (h1 : ∀ q ∈ rs₁, q.msg_id ≠ m) (hr : r.msg_id = m) :
    msgStep now fbW fbP vts pts ev (rs₁ ++ r :: rs₂)
      = Except.ok (rs₁ ++ { r with status := "sent" } :: rs₂) := by
  unfold msgStep upsertMessage
  have hmsg' : (resolveMsgInput fbW fbP vts pts ev).msg_id = some m := hm
  have hwa' : truthyS (resolveMsgInput fbW fbP vts pts ev).wa_id
      = true := hwa
  have hts' : asDate now (resolveMsgInput fbW fbP vts pts ev).timestamp
      = some t := ht
  have hmt : truthyS (some m) = true := truthyS_some hmne
  simp only [hmsg', hwa', hmt, hts', Bool.not_true, Bool.or_self,
    Bool.false_eq_true, if_false, Option.getD_some]
  have hany : (rs₁ ++ r :: rs₂).any (fun q => q.msg_id == m) = true := by
    simp only [List.any_eq_true]
    exact ⟨r, by simp, by simp [hr]⟩
  simp only [hany, if_true]
  rw [updateFirst_append_of_forall_not _ _ _ _
    (fun q hq => by simp [h1 q hq])]
  simp [updateFirst, hr]
  rfl

/-- C10 (witness for the amended theorem): a record in status "read" is
reset to "sent" by re-ingesting its message event. -/
theorem c10_reingest_resets_status_witness :
    orTruthy (mkMsg "a").id (mkMsg "a").msg_id = some "a" ∧
    asDate 0 (tsOr (mkMsg "a").timestamp
      (tsOr TsInput.none TsInput.none)) = some 1000 ∧
    msgStep 0 Option.none "Unknown" TsInput.none TsInput.none (mkMsg "a")
        [⟨"u", "a", Option.none, "hello", 777, "read", "Unknown",
          false⟩]
      = Except.ok [⟨"u", "a", Option.none, "hello", 777, "sent",
          "Unknown", false⟩] :=
  ⟨by decide, by decide,
   c10_reingest_resets_status 0 Option.none "Unknown" TsInput.none
     TsInput.none (mkMsg "a") "a" (by decide) (by decide) (by decide)
     1000 (by decide) [] [] _ (by simp) rfl⟩
lemma asDate_tsOr_dup (now : Int) (a b : TsInput) :
    asDate now (tsOr a (tsOr b b)) = asDate now (tsOr a (tsOr b .none))
    := by
  unfold tsOr
  by_cases ha : a.truthy = true
  · simp [ha]
  · simp only [Bool.not_eq_true] at ha
    simp only [ha, Bool.false_eq_true, if_false, ite_self]
    by_cases hb : b.truthy = true
    · simp [hb]
    · simp only [Bool.not_eq_true] at hb
      simp only [hb, Bool.false_eq_true, if_false]
      rw [asDate_falsy now b hb]
      rfl

lemma msgStep_payloadTs_dup (now : Int) (fbW : Option String)
    (fbP : String) (vts : TsInput) (m : MsgEvent) (st : List Message) :
    msgStep now fbW fbP vts vts m st
      = msgStep now fbW fbP vts TsInput.none m st := by
  unfold msgStep resolveMsgInput upsertMessage
  dsimp only
  rw [asDate_tsOr_dup]

lemma runMsgs_payloadTs_dup (now : Int) (fbW : Option String)
    (fbP : String) (vts : TsInput) (l : List MsgEvent)
    (st : List Message) :
    runMsgs now fbW fbP vts vts l st
      = runMsgs now fbW fbP vts TsInput.none l st := by
  induction l generalizing st with
  | nil => rfl
  | cons m ms ih =>
    simp only [runMsgs]
    rw [msgStep_payloadTs_dup]
    cases hms : msgStep now fbW fbP vts TsInput.none m st with
    | error e => rfl
    | ok st2 => exact ih st2

/-! ## C2: payload shape equivalence -/

/-- C2 (counterexample): a flat payload with two messages and the
equivalent nested envelope spreading them over two entries do not produce
identical stored records — `processFile` reads only `entry[0].changes[0]`,
so the second entry's message is dropped. -/
theorem c2_multi_entry_counterexample :
    processFile 0 c2Flat [] ≠ processFile 0 c2NestedTwoEntries [] ∧
    (processFile 0 c2Flat []).1.length = 2 ∧
    (processFile 0 c2NestedTwoEntries []).1.length = 1 := by
  refine ⟨?_, ?_, ?_⟩ <;> decide

/-- C2 (amended): for every logical message/status event container, the
flat root-level payload and the nested envelope holding the same container
as its single entry's single change produce identical stored records;
entries and changes beyond the first are ignored by `processFile` (see the
counterexample), so the equivalence holds for single-entry, single-change
envelopes. -/
theorem c2_shape_equivalence (now : Int) (v : ValueObj)
    (store : List Message) :
    processFile now (flatOf v) store = processFile now (nestedOf v) store
    := by
  have hmsgs : (v.messages <|> v.messages) = v.messages := by
    cases v.messages <;> rfl
  have hstat :
      (v.statuses <|> v.message_status <|> v.statuses)
        = (v.statuses <|> v.message_status <|> Option.none) := by
    cases v.statuses <;> cases v.message_status <;> rfl
  unfold processFile flatOf nestedOf emptyValue
  dsimp only
  simp only [Option.none_orElse, Option.orElse_none, Option.some_orElse,
    Option.none_bind, Option.some_bind, List.head?_cons,
    Option.getD_some, Option.getD_none, hmsgs, hstat]
  rw [runMsgs_payloadTs_dup]

lemma pairwise_trivial {α : Type} (R : α → α → Prop) (l : List α)
    (h : ∀ a b, R a b) : l.Pairwise R := by
  induction l with
  | nil => exact List.Pairwise.nil
  | cons x xs ih => exact List.Pairwise.cons (fun y _ => h x y) ih

lemma exists_map_decomp {A B : Type} (f1 : A → MessageInput)
    (f2 : B → StatusInput) (l1 : List A) (l2 : List B) :
    ∃ (ms : List MessageInput) (ss : List StatusInput),
      (l1.map (fun m => Op.msg (f1 m))
        ++ l2.map (fun s => Op.status (f2 s)))
      = ms.map Op.msg ++ ss.map Op.status :=
  ⟨l1.map f1, l2.map f2, by rw [List.map_map, List.map_map]; rfl⟩

lemma pairwise_msgs_then_statuses {A B : Type} (f1 : A → MessageInput)
    (f2 : B → StatusInput) (l1 : List A) (l2 : List B) :
    (l1.map (fun m => Op.msg (f1 m))
        ++ l2.map (fun s => Op.status (f2 s))).Pairwise
      (fun a b => a.isStatus = true → b.isStatus = true) := by
  rw [List.pairwise_append]
  refine ⟨?_, ?_, ?_⟩
  · rw [List.pairwise_map]
    exact pairwise_trivial _ _ (fun a b h => by simp [Op.isStatus] at h)
  · rw [List.pairwise_map]
    exact pairwise_trivial _ _ (fun a b _ => rfl)
  · intro a ha b hb
    obtain ⟨s, hs, rfl⟩ := List.mem_map.mp hb
    intro h2
    rfl

lemma runOps_msgs (now : Int) (fbW : Option String) (fbP : String)
    (vts pts : TsInput) (l : List MsgEvent) (rest : List Op)
    (st : List Message) :
    runOps now
        (l.map (fun m => Op.msg (resolveMsgInput fbW fbP vts pts m))
          ++ rest) st
      = match runMsgs now fbW fbP vts pts l st with
        | (st1, some e) => (st1, some e)
        | (st1, Option.none) => runOps now rest st1 := by
  induction l generalizing st with
  | nil => rfl
  | cons m ms ih =>
    simp only [List.map_cons, List.cons_append, runOps, runMsgs, msgStep]
    cases hms : upsertMessage now (resolveMsgInput fbW fbP vts pts m) st
      with
    | error e => rfl
    | ok st2 => exact ih st2

lemma runOps_statuses (now : Int) (l : List StatusEvent)
    (st : List Message) :
    runOps now (l.map (fun s => Op.status (resolveStatusInput s))) st
      = (l.foldl (fun st s => statusStep s st) st, Option.none) := by
  induction l generalizing st with
  | nil => rfl
  | cons s ss ih =>
    simp only [List.map_cons, runOps, List.foldl_cons]
    exact ih (statusStep s st)

lemma runOps_replay (now : Int) (fbW : Option String) (fbP : String)
    (vts pts : TsInput) (msgs : List MsgEvent)
    (sts : List StatusEvent) (store : List Message) :
    runOps now
        (msgs.map (fun m => Op.msg (resolveMsgInput fbW fbP vts pts m))
          ++ sts.map (fun s => Op.status (resolveStatusInput s))) store
      = match runMsgs now fbW fbP vts pts msgs store with
        | (st1, some e) => (st1, some e)
        | (st1, Option.none) =>
          (sts.foldl (fun st s => statusStep s st) st1, Option.none)
    := by
  rw [runOps_msgs]
  rcases runMsgs now fbW fbP vts pts msgs store with ⟨st1, e⟩
  cases e with
  | none => exact runOps_statuses now sts st1
  | some e2 => rfl

/-! ## C8: per-source ordering -/

/-- C8: the operations `processFile` applies to the store from one payload
are exactly a block of message upserts followed by a block of status
applications — in the applied trace no status application precedes any
message upsert — and replaying that operation list on the store (with the
pipeline's stop-on-throw behavior) reproduces `processFile`. -/
theorem c8_messages_before_statuses (now : Int) (p : Payload)
    (store : List Message) :
    (∃ (ms : List MessageInput) (ss : List StatusInput),
      processTrace p = ms.map Op.msg ++ ss.map Op.status) ∧
    (processTrace p).Pairwise
      (fun a b => a.isStatus = true → b.isStatus = true) ∧
    runOps now (processTrace p) store = processFile now p store := by
  refine ⟨?_, ?_, ?_⟩
  · unfold processTrace
    dsimp only
    exact exists_map_decomp _ _ _ _
  · unfold processTrace
    dsimp only
    exact pairwise_msgs_then_statuses _ _ _ _
  · unfold processTrace processFile
    dsimp only
    rw [runOps_replay]
/-! ## C3: timestamp normalization -/

/-- C3 (counterexample): the claim says an unparseable value normalizes to
the current time at processing; but `asDate` maps the unparseable string
"not-a-date" to an Invalid Date (`none`), not to the current time. -/
theorem c3_unparseable_not_now :
    asDate 5 (TsInput.str "not-a-date") = Option.none ∧
      asDate 5 (TsInput.str "not-a-date") ≠ some 5 := by
  constructor <;> decide

/-- C3 (amended): a nonzero numeric value `≤ 10^12` is unix seconds and a
numeric value `> 10^12` is unix milliseconds, both within the ±8.64e15 ms
range a `Date` can hold (outside it the result is an Invalid Date, as the
last conjunct shows at 9e15); ISO date strings are parsed; absent, zero
and empty-string timestamps fall back to the current time (non-numeric
unparseable strings yield an Invalid Date instead, see the
counterexample); and the inputs `1700000000`, `1700000000000` and
`"2023-11-14T22:13:20Z"` all normalize to the same UTC instant. -/
theorem c3_timestamp_normalization (now n m : Int) (hn : n ≠ 0)
    (hn2 : n ≤ 1000000000000) (hn3 : -8640000000000 ≤ n)
    (hm : 1000000000000 < m) (hm2 : m ≤ 8640000000000000) :
    asDate now (TsInput.num n) = some (n * 1000) ∧
    asDate now (TsInput.num m) = some m ∧
    asDate now (TsInput.str "2023-11-14T22:13:20Z")
      = some 1700000000000 ∧
    asDate now (TsInput.num 1700000000)
      = asDate now (TsInput.str "2023-11-14T22:13:20Z") ∧
    asDate now (TsInput.num 1700000000000)
      = asDate now (TsInput.str "2023-11-14T22:13:20Z") ∧
    asDate now TsInput.none = some now ∧
    asDate now (TsInput.num 0) = some now ∧
    asDate now (TsInput.str "") = some now ∧
    asDate now (TsInput.num 9000000000000000) = Option.none := by
  have hemp : ("2023-11-14T22:13:20Z").isEmpty = false := by decide
  have hnum : jsToInt "2023-11-14T22:13:20Z" = Option.none := by decide
  have hpar : (parseISO "2023-11-14T22:13:20Z").bind clipDate
      = some 1700000000000 := by decide
  have hiso : asDate now (TsInput.str "2023-11-14T22:13:20Z")
      = some 1700000000000 := by
    simp [asDate, hemp, hnum, hpar]
  have hsec : asDate now (TsInput.num 1700000000)
      = some 1700000000000 := by
    norm_num [asDate, clipDate]
  have hmil : asDate now (TsInput.num 1700000000000)
      = some 1700000000000 := by
    norm_num [asDate, clipDate]
  refine ⟨?_, ?_, hiso, by rw [hiso, hsec], by rw [hiso, hmil], rfl,
    asDate_falsy now _ (by decide), asDate_falsy now _ (by decide),
    by norm_num [asDate, clipDate]⟩
  · have h0 : (n == 0) = false := by simp [hn]
    simp only [asDate, h0, Bool.false_eq_true, if_false]
    rw [if_neg (not_lt.mpr hn2)]
    unfold clipDate
    rw [if_pos ⟨by omega, by omega⟩]
  · have h0 : (m == 0) = false := by rw [beq_eq_false_iff_ne]; omega
    simp only [asDate, h0, Bool.false_eq_true, if_false]
    rw [if_pos hm]
    unfold clipDate
    rw [if_pos ⟨by omega, by omega⟩]

/-- C3 (witness for the amended theorem). -/
theorem c3_timestamp_normalization_witness :
    (5 : Int) ≠ 0 ∧ (5 : Int) ≤ 1000000000000 ∧
    (-8640000000000 : Int) ≤ 5 ∧
    (1000000000000 : Int) < 1700000000000 ∧
    (1700000000000 : Int) ≤ 8640000000000000 ∧
    asDate 7 (TsInput.num 5) = some 5000 :=
  ⟨by decide, by decide, by decide, by decide, by decide,
   (c3_timestamp_normalization 7 5 1700000000000 (by decide) (by decide)
     (by decide) (by decide) (by decide)).1⟩

/-! ## C5: unresolvable status events -/

/-- C5 (counterexample): the claim says a status event whose primary id
matches no record and whose correlation id matches no record leaves the
store unchanged and reports matched:false; but with an absent primary id
Mongoose strips the undefined filter key, so `findOneAndUpdate({})`
updates the first stored document even though the correlation id "X"
matches nothing — and the JS function returns `undefined`, reporting no
matched flag at all. -/
theorem c5_absent_id_updates_first :
    applyStatus ⟨Option.none, some "X", some "delivered"⟩ c5Store
      = [⟨"u", "A", Option.none, "hi", 0, "delivered", "Unknown",
          false⟩] ∧
    applyStatus ⟨Option.none, some "X", some "delivered"⟩ c5Store
      ≠ c5Store := by
  constructor <;> decide

/-- C5 (amended): for every status input whose primary id is present but
matches no stored record and whose correlation id matches no stored
record, `applyStatus` leaves every record in the store unchanged (the JS
function returns `undefined`: it reports nothing, and with an absent
primary id the first stored document would be updated instead). -/
theorem c5_unresolvable_status (i : StatusInput) (x : String)
    (store : List Message) (hid : i.id = some x)
    (h1 : ∀ r ∈ store, (r.msg_id == x) = false)
    (h2 : ∀ r ∈ store, metaQuery i.metaMsgId r = false) :
    applyStatus i store = store := by
  unfold applyStatus
  have hany1 : store.any (msgIdQuery i.id) = false := by
    simp only [List.any_eq_false]
    intro r hr
    simp [msgIdQuery, hid, h1 r hr]
  by_cases hguard : (!truthyS i.id && !truthyS i.metaMsgId) = true
  · simp [hguard]
  · simp only [Bool.not_eq_true] at hguard
    simp only [hguard, Bool.false_eq_true, if_false, hany1]
    by_cases hmeta : truthyS i.metaMsgId = true
    · simp [hmeta,
        updateFirst_of_forall_not (metaQuery i.metaMsgId) _ store h2]
    · simp only [Bool.not_eq_true] at hmeta
      simp [hmeta]

/-- C5 (witness for the amended theorem). -/
theorem c5_unresolvable_status_witness :
    applyStatus ⟨some "X", some "X", some "delivered"⟩ c5Store
      = c5Store :=
  c5_unresolvable_status ⟨some "X", some "X", some "delivered"⟩ "X"
    c5Store rfl (by decide) (by decide)

/-! ## C4: status correlation fallback -/

/-- C4: `applyStatus` tries the primary `msg_id` lookup first and falls
back to the correlation id exactly when the primary lookup matches
nothing: a status event whose ids resolve to `x` updates the record that
is reachable only via `meta_msg_id = x` when no record has `msg_id = x`
(first conjunct), while a record with `msg_id = x` takes precedence and
the correlation match is then not consulted (second conjunct). -/
theorem c4_status_fallback (x st : String) (hx : x ≠ "")
    (rs₁ rs₂ : List Message) (r r' : Message)
    (hmsg : ∀ q ∈ rs₁ ++ r :: rs₂, q.msg_id ≠ x)
    (hmeta : ∀ q ∈ rs₁, q.meta_msg_id ≠ some x)
    (hr : r.meta_msg_id = some x) (hr' : r'.msg_id = x) :
    applyStatus ⟨some x, some x, some st⟩ (rs₁ ++ r :: rs₂)
      = rs₁ ++ { r with status := st } :: rs₂ ∧
    applyStatus ⟨some x, some x, some st⟩ (r' :: (rs₁ ++ r :: rs₂))
      = { r' with status := st } :: (rs₁ ++ r :: rs₂) := by
  have htr := truthyS_some hx
  have hanymsg : (rs₁ ++ r :: rs₂).any (msgIdQuery (some x)) = false := by
    simp only [List.any_eq_false]
    intro q hq
    simp [msgIdQuery, hmsg q hq]
  constructor
  · unfold applyStatus
    simp only [htr, Bool.not_true, Bool.false_and, Bool.false_eq_true,
      if_false, hanymsg, if_true]
    rw [updateFirst_append_of_forall_not _ _ _ _
      (fun q hq => by simp [metaQuery, hmeta q hq])]
    simp [updateFirst, metaQuery, hr, setStatus]
  · unfold applyStatus
    have hany : (r' :: (rs₁ ++ r :: rs₂)).any (msgIdQuery (some x))
        = true := by
      simp only [List.any_eq_true]
      exact ⟨r', by simp, by simp [msgIdQuery, hr']⟩
    simp only [htr, Bool.not_true, Bool.false_and, Bool.false_eq_true,
      if_false, hany, if_true]
    simp [updateFirst, msgIdQuery, hr', setStatus]

/-- C4 (witness): a store whose only record carries "X" in
`meta_msg_id` gets its status set to "delivered", and with a primary
match prepended the primary record is the one updated. -/
theorem c4_status_fallback_witness :
    applyStatus ⟨some "X", some "X", some "delivered"⟩
      [⟨"u", "m1", some "X", "hi", 0, "sent", "Unknown", false⟩]
      = [⟨"u", "m1", some "X", "hi", 0, "delivered", "Unknown",
          false⟩] ∧
    applyStatus ⟨some "X", some "X", some "delivered"⟩
      [⟨"u", "X", Option.none, "yo", 0, "sent", "Unknown", false⟩,
       ⟨"u", "m1", some "X", "hi", 0, "sent", "Unknown", false⟩]
      = [⟨"u", "X", Option.none, "yo", 0, "delivered", "Unknown",
          false⟩,
         ⟨"u", "m1", some "X", "hi", 0, "sent", "Unknown", false⟩] :=
  c4_status_fallback "X" "delivered" (by decide) [] _ _ _
    (by decide) (by decide) rfl rfl

/-! ## C7: last-write-wins status, no downgrade enforcement -/

/-- C7: when a status input matches a stored record by `msg_id`, its
status is overwritten unconditionally with the input status, whatever the
record's current status — every transition among sent, delivered and read,
forward or backward, is reachable. -/
theorem c7_status_last_write_wins (x st : String) (meta : Option String)
    (hx : x ≠ "") (rs₁ rs₂ : List Message) (r : Message)
    (h1 : ∀ q ∈ rs₁, q.msg_id ≠ x) (hr : r.msg_id = x) :
    applyStatus ⟨some x, meta, some st⟩ (rs₁ ++ r :: rs₂)
      = rs₁ ++ { r with status := st } :: rs₂ := by
  have htr := truthyS_some hx
  unfold applyStatus
  have hany : (rs₁ ++ r :: rs₂).any (msgIdQuery (some x)) = true := by
    simp only [List.any_eq_true]
    exact ⟨r, by simp, by simp [msgIdQuery, hr]⟩
  simp only [htr, Bool.not_true, Bool.false_and, Bool.false_eq_true,
    if_false, hany, if_true]
  rw [updateFirst_append_of_forall_not _ _ _ _
    (fun q hq => by simp [msgIdQuery, h1 q hq])]
  simp [updateFirst, msgIdQuery, hr, setStatus]

/-- C7 (witness): a backward transition — a record currently "read" is
overwritten to "sent". -/
theorem c7_status_last_write_wins_witness :
    applyStatus ⟨some "m1", Option.none, some "sent"⟩
      [⟨"u", "m1", Option.none, "hi", 0, "read", "Unknown", false⟩]
      = [⟨"u", "m1", Option.none, "hi", 0, "sent", "Unknown", false⟩] :=
  c7_status_last_write_wins "m1" "sent" Option.none (by decide) [] _ _
    (by decide) rfl
/-! ## C9: batch isolation and reporting -/

lemma foldl_acc_shift {σ : Type}
    (step : (List Message × List LogEntry) → σ →
      (List Message × List LogEntry))
    (h : ∀ s lg x, step (s, lg) x
      = ((step (s, []) x).1, lg ++ (step (s, []) x).2))
    (files : List σ) (store : List Message) (lg : List LogEntry) :
    files.foldl step (store, lg)
      = ((files.foldl step (store, [])).1,
         lg ++ (files.foldl step (store, [])).2) := by
  induction files generalizing store lg with
  | nil => simp
  | cons x xs ih =>
    simp only [List.foldl_cons]
    rw [h store lg x, h store [] x]
    simp only [List.nil_append]
    rw [ih (step (store, []) x).1 (lg ++ (step (store, []) x).2),
      ih (step (store, []) x).1 (step (store, []) x).2]
    simp [List.append_assoc]

lemma mainStep_shift (now : Int) :
    ∀ (s : List Message) (lg : List LogEntry) (x : SourceFile),
      mainStep now (s, lg) x
        = ((mainStep now (s, []) x).1, lg ++ (mainStep now (s, []) x).2)
    := by
  intro s lg x
  rcases x with ⟨nm, c⟩
  cases c with
  | error e => rfl
  | ok p =>
    rcases hpf : processFile now p s with ⟨st, e2⟩
    cases e2 <;> simp [mainStep, hpf]

lemma mainBatch_append (now : Int) (a b : List SourceFile)
    (store : List Message) :
    mainBatch now (a ++ b) store
      = ((mainBatch now b (mainBatch now a store).1).1,
         (mainBatch now a store).2
           ++ (mainBatch now b (mainBatch now a store).1).2) := by
  unfold mainBatch
  rw [List.filter_append, List.foldl_append]
  rw [foldl_acc_shift (mainStep now) (mainStep_shift now)
    (List.filter (fun f => isJsonName f.name) a) store []]
  rw [foldl_acc_shift (mainStep now) (mainStep_shift now)
    (List.filter (fun f => isJsonName f.name) b) _ _]

lemma mainBatch_single_error (now : Int) (nm emsg : String)
    (store : List Message) (hnm : isJsonName nm = true) :
    mainBatch now [⟨nm, Except.error emsg⟩] store
      = (store, [LogEntry.processing nm, LogEntry.failed nm emsg]) := by
  unfold mainBatch
  simp [hnm, mainStep]

/-- C9 (counterexample): two single-source batches over the same source
name, one upserting one message and the other two, produce identical
reports — so the report produced by the batch driver cannot contain a
count of messages upserted (it logs only per-source success/failure). -/
theorem c9_report_has_no_counts :
    (mainBatch 0 [⟨"a.json", Except.ok c9OneMsg⟩] []).2
      = (mainBatch 0 [⟨"a.json", Except.ok c9TwoMsgs⟩] []).2 ∧
    (mainBatch 0 [⟨"a.json", Except.ok c9OneMsg⟩] []).1.length
      ≠ (mainBatch 0 [⟨"a.json", Except.ok c9TwoMsgs⟩] []).1.length := by
  constructor <;> decide

/-- C9 (amended): a failing source (malformed JSON) does not abort the
remaining sources — the final store is exactly the store produced by the
batch without that source, so every valid message of every other source is
stored — and the report names the failed source with its error message
between the logs of the preceding and following sources.  (The driver
reports per-source success/failure lines only; it produces no counts of
sources, messages or statuses.) -/
theorem c9_batch_isolation (now : Int) (store : List Message)
    (fs₁ fs₂ : List SourceFile) (nm emsg : String)
    (hnm : isJsonName nm = true) :
    (mainBatch now (fs₁ ++ ⟨nm, Except.error emsg⟩ :: fs₂) store).1
      = (mainBatch now (fs₁ ++ fs₂) store).1 ∧
    (mainBatch now (fs₁ ++ ⟨nm, Except.error emsg⟩ :: fs₂) store).2
      = (mainBatch now fs₁ store).2
        ++ [LogEntry.processing nm, LogEntry.failed nm emsg]
        ++ (mainBatch now fs₂ (mainBatch now fs₁ store).1).2 := by
  have h1 : fs₁ ++ ⟨nm, Except.error emsg⟩ :: fs₂
      = (fs₁ ++ [⟨nm, Except.error emsg⟩]) ++ fs₂ := by simp
  rw [h1, mainBatch_append, mainBatch_append now fs₁
    [⟨nm, Except.error emsg⟩] store,
    mainBatch_single_error now nm emsg _ hnm,
    mainBatch_append now fs₁ fs₂ store]
  simp [List.append_assoc]

/-- C9 (witness): a three-source batch whose middle source is malformed
stores the messages of sources 1 and 3 and reports the failure of the
middle source by name and message. -/
theorem c9_batch_isolation_witness :
    isJsonName "bad.json" = true ∧
    (mainBatch 0 [⟨"one.json", Except.ok c9OneMsg⟩,
        ⟨"bad.json", Except.error "Unexpected token"⟩,
        ⟨"three.json", Except.ok c9TwoMsgs⟩] []).1
      = (mainBatch 0 [⟨"one.json", Except.ok c9OneMsg⟩,
          ⟨"three.json", Except.ok c9TwoMsgs⟩] []).1 ∧
    (mainBatch 0 [⟨"one.json", Except.ok c9OneMsg⟩,
        ⟨"bad.json", Except.error "Unexpected token"⟩,
        ⟨"three.json", Except.ok c9TwoMsgs⟩] []).2
      = (mainBatch 0 [⟨"one.json", Except.ok c9OneMsg⟩] []).2
        ++ [LogEntry.processing "bad.json",
            LogEntry.failed "bad.json" "Unexpected token"]
        ++ (mainBatch 0 [⟨"three.json", Except.ok c9TwoMsgs⟩]
            (mainBatch 0 [⟨"one.json", Except.ok c9OneMsg⟩] []).1).2 :=
  ⟨by decide,
   (c9_batch_isolation 0 [] [⟨"one.json", Except.ok c9OneMsg⟩]
      [⟨"three.json", Except.ok c9TwoMsgs⟩] "bad.json" "Unexpected token"
      (by decide)).1,
   (c9_batch_isolation 0 [] [⟨"one.json", Except.ok c9OneMsg⟩]
      [⟨"three.json", Except.ok c9TwoMsgs⟩] "bad.json" "Unexpected token"
      (by decide)).2⟩

end WhatsApp
